import Mathlib

/-!
Shallow embedding of src/pointer-analysis.py, a benchmark harness that
discovers benchmark directories, runs two egglog binaries on each, collects
elapsed times, prints a summary and renders a bar chart.

Times are modelled as rationals.  The outside world (filesystem contents,
child-process behaviour) is passed in explicitly; every print statement of
the script is modelled as a message value appended to a trace.
-/

/-- Elapsed seconds are modelled as rationals. -/
abbrev Seconds := ℚ

/-- The fixed per-invocation timeout of subprocess.run (3600 seconds,
line 118 of the source). -/
def TIMEOUT : Seconds := 3600

/-- The value of the speedup expression
`baseline_time / egglog_time if egglog_time > 0 else float('inf')`
(lines 84, 148 and 160 of the source): either a finite rational or the
float infinity. -/
inductive SpeedupVal where
  | finite (q : ℚ)
  | inf
deriving DecidableEq

/-- `speedupOf t b` embeds the expression
`b / t if t > 0 else float('inf')` used at lines 84, 148 and 160. -/
def speedupOf (egglog_time baseline_time : Seconds) : SpeedupVal :=
  if 0 < egglog_time then SpeedupVal.finite (baseline_time / egglog_time)
  else SpeedupVal.inf

/-- What the child process would do when launched: run for `dur` seconds and
exit with code `rc` having written `err` to its standard error, or fail to
launch at all (the generic exception branch at line 135). -/
inductive ChildBehavior where
  | runsFor (dur : Seconds) (rc : ℤ) (err : String)
  | launchError (msg : String)
deriving DecidableEq

/-- The stderr target computed at line 115 of the source.  The conditional
choice (PIPE for the primary binary) is commented out at line 114; the live
line sets DEVNULL unconditionally. -/
inductive StderrTarget where
  | devnull
  | pipe
deriving DecidableEq

/-- Line 115: `stderr_target = subprocess.DEVNULL` (the parameter
`redirect_stderr` is ignored by the live code). -/
def stderr_target (redirect_stderr : Bool) : StderrTarget :=
  StderrTarget.devnull

/-- The `stderr` field of the CompletedProcess: the child's stderr text when
the target is PIPE, and None when it is DEVNULL. -/
def capturedStderr (target : StderrTarget) (text : String) : Option String :=
  match target with
  | StderrTarget.pipe => some text
  | StderrTarget.devnull => none

/-- Python truthiness of the Optional[str] field result.stderr. -/
def stderrTruthy : Option String → Bool
  | none => false
  | some s => s ≠ ""

/-- One message printed by run_benchmark (lines 100, 124, 127, 129, 133,
136 of the source). -/
inductive RunMsg where
  | running (binary_name : String)
  | completedIn (binary_name : String) (t : Seconds)
  | failedWithExit (binary_name : String) (rc : ℤ)
  | errorExcerpt (binary_name : String) (excerpt : String)
  | timedOutMsg (binary_name : String)
  | otherError (binary_name : String) (msg : String)
deriving DecidableEq

/-- `run_benchmark` (lines 98-137): returns the elapsed seconds on a zero
exit within the timeout, and None on non-zero exit, timeout, or any other
exception; paired with the messages it prints.  The timeout fires when the
child would run longer than TIMEOUT. -/
def run_benchmark (binary_name : String) (redirect_stderr : Bool)
    (child : ChildBehavior) : Option Seconds × List RunMsg :=
  match child with
  | ChildBehavior.runsFor dur rc errText =>
      if TIMEOUT < dur then
        (none, [RunMsg.running binary_name, RunMsg.timedOutMsg binary_name])
      else
        let stderrField := capturedStderr (stderr_target redirect_stderr) errText
        if rc = 0 then
          (some dur, [RunMsg.running binary_name, RunMsg.completedIn binary_name dur])
        else if ¬ redirect_stderr ∧ stderrTruthy stderrField then
          (none, [RunMsg.running binary_name, RunMsg.failedWithExit binary_name rc,
                  RunMsg.errorExcerpt binary_name ((stderrField.getD "").take 200)])
        else
          (none, [RunMsg.running binary_name, RunMsg.failedWithExit binary_name rc])
  | ChildBehavior.launchError m =>
      (none, [RunMsg.running binary_name, RunMsg.otherError binary_name m])

/-- Rendered text of a run_benchmark message.  Numeric formatting
(`%.3f`) is abstracted by toString; the fixed wording matches the
f-strings of the source. -/
def RunMsg.render : RunMsg → String
  | RunMsg.running n => "  Running " ++ n ++ "..."
  | RunMsg.completedIn n t => "    " ++ n ++ (" completed in " ++ toString t ++ "s")
  | RunMsg.failedWithExit n rc => "    " ++ n ++ (" failed with exit code " ++ toString rc)
  | RunMsg.errorExcerpt _ e => "    Error: " ++ e ++ "..."
  | RunMsg.timedOutMsg n => "    " ++ n ++ " timed out (>1 hour)"
  | RunMsg.otherError n m => "    " ++ n ++ (" error: " ++ m)

/-- The results dictionary of line 60: three parallel lists. -/
structure Results where
  benchmarks : List String
  egglog_times : List Seconds
  baseline_times : List Seconds
deriving DecidableEq

/-- The empty results dictionary created at line 60. -/
def emptyResults : Results := ⟨[], [], []⟩

/-- One benchmark directory together with what each child process would do
for it. -/
structure BenchWorld where
  name : String
  egglogChild : ChildBehavior
  baselineChild : ChildBehavior
deriving DecidableEq

/-- Line 70: the primary invocation for a benchmark. -/
def run_egglog (w : BenchWorld) : Option Seconds × List RunMsg :=
  run_benchmark "egglog" false w.egglogChild

/-- Line 73: the baseline invocation, with redirect_stderr=True. -/
def run_base (w : BenchWorld) : Option Seconds × List RunMsg :=
  run_benchmark "egglog-baseline" true w.baselineChild

/-- Lines 76-79: append the triple to the results only when both
invocations returned a time. -/
def stepResults (r : Results) (w : BenchWorld) : Results :=
  match (run_egglog w).1, (run_base w).1 with
  | some t1, some t2 =>
      ⟨r.benchmarks ++ [w.name], r.egglog_times ++ [t1], r.baseline_times ++ [t2]⟩
  | _, _ => r

/-- Both invocations for this benchmark succeeded. -/
def bothOk (w : BenchWorld) : Bool :=
  (run_egglog w).1.isSome && (run_base w).1.isSome

/-- Identifiers for the five fatal pre-flight failures of lines 23-52, in
source order. -/
inductive PreflightError where
  | benchmarkRootMissing
  | egglogBinaryMissing
  | baselineBinaryMissing
  | pointerFileMissing
  | readError
  | noBenchmarks
deriving DecidableEq

/-- One message printed by main / print_summary / create_bar_chart. -/
inductive Msg where
  | preflightError (which : PreflightError)
  | foundDirs (n : Nat) (dirs : List String)
  | runningBenchmark (name : String)
  | runner (m : RunMsg)
  | resultsFor (name : String) (t1 t2 : Seconds) (sp : SpeedupVal)
  | separator
  | summaryHeader
  | summaryTotals (n : Nat) (totalEgglog totalBaseline : Seconds) (overall : SpeedupVal)
  | summaryLine (name : String) (t1 t2 : Seconds) (sp : SpeedupVal)
  | noComparisons
  | chartSaved
deriving DecidableEq

/-- The messages printed while processing one benchmark (lines 64-88):
the progress line, the messages of both invocations, and on joint success
the per-benchmark result block with its speedup, then the separator. -/
def stepMsgs (w : BenchWorld) : List Msg :=
  [Msg.runningBenchmark w.name]
    ++ (run_egglog w).2.map Msg.runner
    ++ (run_base w).2.map Msg.runner
    ++ (match (run_egglog w).1, (run_base w).1 with
        | some t1, some t2 => [Msg.resultsFor w.name t1 t2 (speedupOf t1 t2)]
        | _, _ => [])
    ++ [Msg.separator]

/-- The body of the loop at line 63, acting on the accumulated results and
trace. -/
def processBenchmark (acc : Results × List Msg) (w : BenchWorld) :
    Results × List Msg :=
  (stepResults acc.1 w, acc.2 ++ stepMsgs w)

/-- The filesystem state the script consults: existence of the four fixed
paths, the entries os.listdir would return for the root (None modelling an
OSError), and which entries are directories. -/
structure FS where
  benchmarkRootExists : Bool
  egglogBinaryExists : Bool
  baselineBinaryExists : Bool
  pointerFileExists : Bool
  listRoot : Option (List String)
  isDir : String → Bool

/-- Lines 43-45: retain the entries that are directories, then sort. -/
def enumerate (entries : List String) (isDir : String → Bool) : List String :=
  List.insertionSort (fun a b : String => a ≤ b) (entries.filter isDir)

/-- Lines 23-52: the chain of existence checks, the listdir/sort step and
the empty-set check; the first failing check wins. -/
def preflight (fs : FS) : Except PreflightError (List String) :=
  if ¬ fs.benchmarkRootExists then Except.error PreflightError.benchmarkRootMissing
  else if ¬ fs.egglogBinaryExists then Except.error PreflightError.egglogBinaryMissing
  else if ¬ fs.baselineBinaryExists then Except.error PreflightError.baselineBinaryMissing
  else if ¬ fs.pointerFileExists then Except.error PreflightError.pointerFileMissing
  else
    match fs.listRoot with
    | none => Except.error PreflightError.readError
    | some entries =>
        let benchmark_dirs := enumerate entries fs.isDir
        if benchmark_dirs.isEmpty then Except.error PreflightError.noBenchmarks
        else Except.ok benchmark_dirs

/-- print_summary (lines 140-161): the header, the totals with the overall
speedup (ratio of the sums, infinite at a zero egglog total), and one line
per benchmark indexed as in the source's enumerate loop. -/
def print_summary (results : Results) : List Msg :=
  let total_egglog := results.egglog_times.sum
  let total_baseline := results.baseline_times.sum
  let overall_speedup := speedupOf total_egglog total_baseline
  [Msg.summaryHeader,
   Msg.summaryTotals results.benchmarks.length total_egglog total_baseline overall_speedup]
    ++ (List.range results.benchmarks.length).map (fun i =>
        Msg.summaryLine (results.benchmarks.getD i "")
          (results.egglog_times.getD i 0) (results.baseline_times.getD i 0)
          (speedupOf (results.egglog_times.getD i 0) (results.baseline_times.getD i 0)))

/-- The speedups list of create_bar_chart (lines 187-189):
`baseline/egglog if egglog > 0 else 0` for each index. -/
def chart_speedups (results : Results) : List ℚ :=
  (List.range results.benchmarks.length).map (fun i =>
    if 0 < results.egglog_times.getD i 0 then
      results.baseline_times.getD i 0 / results.egglog_times.getD i 0
    else 0)

/-- The observable outcome of one run of main: the printed trace, the exit
status, and the results dictionary (None when the run aborted before the
dictionary is created at line 60). -/
structure MainResult where
  trace : List Msg
  exitCode : Nat
  results : Option Results
deriving DecidableEq

/-- main (lines 11-95): pre-flight checks (each failure prints its message
and exits with status 1), then the benchmark loop, then either the
no-comparisons message or the summary and the chart; the process ends with
the implicit status 0. -/
def pmain (fs : FS) (eg bl : String → ChildBehavior) : MainResult :=
  match preflight fs with
  | Except.error e => ⟨[Msg.preflightError e], 1, none⟩
  | Except.ok benchmark_dirs =>
      let worlds := benchmark_dirs.map (fun n => BenchWorld.mk n (eg n) (bl n))
      let folded := worlds.foldl processBenchmark
        (emptyResults, [Msg.foundDirs benchmark_dirs.length benchmark_dirs])
      if folded.1.benchmarks.isEmpty then
        ⟨folded.2 ++ [Msg.noComparisons], 0, some folded.1⟩
      else
        ⟨folded.2 ++ print_summary folded.1 ++ [Msg.chartSaved], 0, some folded.1⟩

/-- A benchmark world whose two invocations both succeed (2s and 4s). -/
def wOk : BenchWorld := ⟨"ok", ChildBehavior.runsFor 2 0 "", ChildBehavior.runsFor 4 0 ""⟩

/-- A benchmark world whose first invocation exits with code 1 (writing
"boom" to stderr) while the second would succeed. -/
def wFail : BenchWorld := ⟨"fail", ChildBehavior.runsFor 1 1 "boom", ChildBehavior.runsFor 3 0 ""⟩

/-- A benchmark world whose first invocation exceeds the timeout. -/
def wSlow : BenchWorld := ⟨"slow", ChildBehavior.runsFor 4000 0 "", ChildBehavior.runsFor 3 0 ""⟩

/-- A filesystem state in which every pre-flight check passes and the root
holds the single directory a. -/
def fsGood : FS := ⟨true, true, true, true, some ["a"], fun _ => true⟩

/-- A filesystem state whose benchmark root is missing (and more is broken
besides, so that the first check must win). -/
def fsNoRoot : FS := ⟨false, false, true, true, none, fun _ => true⟩

/-- The success child used in witnesses: exits 0 after 2 seconds. -/
def egAll : String → ChildBehavior := fun _ => ChildBehavior.runsFor 2 0 ""

/-- The baseline success child used in witnesses: exits 0 after 4 seconds. -/
def blAll : String → ChildBehavior := fun _ => ChildBehavior.runsFor 4 0 ""

/-- A primary child that always exits with code 1 after 1 second. -/
def egFail : String → ChildBehavior := fun _ => ChildBehavior.runsFor 1 1 "boom"

theorem run_benchmark_msgs_head (binary_name : String) (redirect_stderr : Bool)
    (child : ChildBehavior) :
    ∃ rest, (run_benchmark binary_name redirect_stderr child).2
      = RunMsg.running binary_name :: rest := by
  rcases child with ⟨dur, rc, errText⟩ | m
  · simp only [run_benchmark]
    split
    · exact ⟨_, rfl⟩
    · split
      · exact ⟨_, rfl⟩
      · split
        · exact ⟨_, rfl⟩
        · exact ⟨_, rfl⟩
  · exact ⟨_, rfl⟩

theorem run_benchmark_no_excerpt (binary_name : String) (redirect_stderr : Bool)
    (child : ChildBehavior) (e : String) :
    RunMsg.errorExcerpt binary_name e ∉ (run_benchmark binary_name redirect_stderr child).2 := by
  rcases child with ⟨dur, rc, errText⟩ | m
  · simp only [run_benchmark, stderr_target, capturedStderr, stderrTruthy]
    split
    · simp
    · split
      · simp
      · split
        · simp_all
        · simp
  · simp [run_benchmark]

theorem run_benchmark_nonzero_exit (binary_name : String) (redirect_stderr : Bool)
    (dur : Seconds) (rc : ℤ) (errText : String) (hrc : rc ≠ 0) :
    (run_benchmark binary_name redirect_stderr (ChildBehavior.runsFor dur rc errText)).1
      = none := by
  simp only [run_benchmark]
  split_ifs <;> simp_all

theorem run_benchmark_timeout (binary_name : String) (redirect_stderr : Bool)
    (dur : Seconds) (rc : ℤ) (errText : String) (h : TIMEOUT < dur) :
    run_benchmark binary_name redirect_stderr (ChildBehavior.runsFor dur rc errText)
      = (none, [RunMsg.running binary_name, RunMsg.timedOutMsg binary_name]) := by
  simp [run_benchmark, h]

theorem stepResults_none (r : Results) (w : BenchWorld)
    (h : (run_egglog w).1 = none ∨ (run_base w).1 = none) : stepResults r w = r := by
  unfold stepResults
  rcases h with h | h
  · rw [h]
  · rw [h]
    rcases (run_egglog w).1 with _ | t1 <;> rfl

theorem stepResults_some (r : Results) (w : BenchWorld) (t1 t2 : Seconds)
    (h1 : (run_egglog w).1 = some t1) (h2 : (run_base w).1 = some t2) :
    stepResults r w
      = ⟨r.benchmarks ++ [w.name], r.egglog_times ++ [t1], r.baseline_times ++ [t2]⟩ := by
  unfold stepResults
  rw [h1, h2]

theorem bothOk_false_none (w : BenchWorld) (h : bothOk w = false) :
    (run_egglog w).1 = none ∨ (run_base w).1 = none := by
  unfold bothOk at h
  rcases h1 : (run_egglog w).1 with _ | t1
  · exact Or.inl rfl
  · rcases h2 : (run_base w).1 with _ | t2
    · exact Or.inr rfl
    · rw [h1, h2] at h
      simp at h

theorem bothOk_true_some (w : BenchWorld) (h : bothOk w = true) :
    (run_egglog w).1 = some ((run_egglog w).1.getD 0)
      ∧ (run_base w).1 = some ((run_base w).1.getD 0) := by
  unfold bothOk at h
  rcases h1 : (run_egglog w).1 with _ | t1 <;> rcases h2 : (run_base w).1 with _ | t2 <;>
    rw [h1, h2] at h <;> simp_all

theorem foldl_processBenchmark (ws : List BenchWorld) (r0 : Results) (tr0 : List Msg) :
    ws.foldl processBenchmark (r0, tr0)
      = (ws.foldl stepResults r0, tr0 ++ (ws.map stepMsgs).flatten) := by
  induction ws generalizing r0 tr0 with
  | nil => simp
  | cons w ws ih =>
      simp only [List.foldl_cons, List.map_cons, List.flatten_cons]
      rw [processBenchmark, ih]
      simp [List.append_assoc]

theorem foldl_stepResults_eq (ws : List BenchWorld) (r0 : Results) :
    ws.foldl stepResults r0 =
      ⟨r0.benchmarks ++ (ws.filter bothOk).map BenchWorld.name,
       r0.egglog_times ++ (ws.filter bothOk).map (fun w => ((run_egglog w).1).getD 0),
       r0.baseline_times ++ (ws.filter bothOk).map (fun w => ((run_base w).1).getD 0)⟩ := by
  induction ws generalizing r0 with
  | nil => simp
  | cons w ws ih =>
      rcases hb : bothOk w with _ | _
      · rw [List.foldl_cons, stepResults_none r0 w (bothOk_false_none w hb), ih]
        simp [List.filter_cons, hb]
      · obtain ⟨h1, h2⟩ := bothOk_true_some w hb
        rw [List.foldl_cons, stepResults_some r0 w _ _ h1 h2, ih]
        simp [List.filter_cons, hb]

theorem enumerate_eq_nil_iff (entries : List String) (isDir : String → Bool) :
    enumerate entries isDir = [] ↔ entries.filter isDir = [] := by
  unfold enumerate
  constructor
  · intro h
    have hp := List.perm_insertionSort (fun a b : String => a ≤ b) (entries.filter isDir)
    rw [h] at hp
    exact hp.symm.eq_nil
  · intro h
    rw [h]
    rfl

theorem pmain_error (fs : FS) (eg bl : String → ChildBehavior) (e : PreflightError)
    (h : preflight fs = Except.error e) :
    pmain fs eg bl = ⟨[Msg.preflightError e], 1, none⟩ := by
  unfold pmain
  rw [h]

theorem pmain_ok (fs : FS) (eg bl : String → ChildBehavior) (dirs : List String)
    (h : preflight fs = Except.ok dirs) :
    pmain fs eg bl =
      (let worlds := dirs.map (fun n => BenchWorld.mk n (eg n) (bl n))
       let r := worlds.foldl stepResults emptyResults
       let tr := [Msg.foundDirs dirs.length dirs] ++ (worlds.map stepMsgs).flatten
       if r.benchmarks.isEmpty then ⟨tr ++ [Msg.noComparisons], 0, some r⟩
       else ⟨tr ++ print_summary r ++ [Msg.chartSaved], 0, some r⟩) := by
  unfold pmain
  rw [h]
  simp only [foldl_processBenchmark, List.singleton_append]

theorem pmain_ok_empty (fs : FS) (eg bl : String → ChildBehavior) (dirs : List String)
    (h : preflight fs = Except.ok dirs)
    (hr : (dirs.map (fun n => BenchWorld.mk n (eg n) (bl n))).foldl stepResults emptyResults
        = emptyResults) :
    pmain fs eg bl
      = ⟨[Msg.foundDirs dirs.length dirs]
          ++ ((dirs.map (fun n => BenchWorld.mk n (eg n) (bl n))).map stepMsgs).flatten
          ++ [Msg.noComparisons], 0, some emptyResults⟩ := by
  unfold pmain
  rw [h]
  simp only [foldl_processBenchmark, List.singleton_append, hr]
  rfl

theorem pmain_ok_results (fs : FS) (eg bl : String → ChildBehavior) (dirs : List String)
    (h : preflight fs = Except.ok dirs) :
    (pmain fs eg bl).results
        = some ((dirs.map (fun n => BenchWorld.mk n (eg n) (bl n))).foldl
            stepResults emptyResults)
  ∧ (((dirs.map (fun n => BenchWorld.mk n (eg n) (bl n))).foldl
        stepResults emptyResults).benchmarks.isEmpty = false →
      (pmain fs eg bl).trace
        = [Msg.foundDirs dirs.length dirs]
          ++ ((dirs.map (fun n => BenchWorld.mk n (eg n) (bl n))).map stepMsgs).flatten
          ++ print_summary ((dirs.map (fun n => BenchWorld.mk n (eg n) (bl n))).foldl
              stepResults emptyResults)
          ++ [Msg.chartSaved]) := by
  unfold pmain
  rw [h]
  simp only [foldl_processBenchmark, List.singleton_append]
  constructor
  · split <;> rfl
  · intro hne
    split
    · simp_all
    · simp [List.append_assoc]

theorem mem_stepMsgs_cases (w : BenchWorld) (m : Msg) (hm : m ∈ stepMsgs w) :
    m = Msg.runningBenchmark w.name
    ∨ (∃ rm, m = Msg.runner rm)
    ∨ (∃ t1 t2, m = Msg.resultsFor w.name t1 t2 (speedupOf t1 t2))
    ∨ m = Msg.separator := by
  unfold stepMsgs at hm
  rcases h1 : (run_egglog w).1 with _ | t1 <;> rcases h2 : (run_base w).1 with _ | t2 <;>
    rw [h1, h2] at hm <;>
    simp only [List.mem_append, List.mem_singleton, List.mem_map, List.mem_cons,
      List.not_mem_nil, or_false] at hm <;>
    aesop

theorem stepMsgs_base_infix (w : BenchWorld) :
    ∃ pre post, stepMsgs w = pre ++ (run_base w).2.map Msg.runner ++ post := by
  refine ⟨[Msg.runningBenchmark w.name] ++ (run_egglog w).2.map Msg.runner, ?_, ?_⟩
  · exact (match (run_egglog w).1, (run_base w).1 with
      | some t1, some t2 => [Msg.resultsFor w.name t1 t2 (speedupOf t1 t2)]
      | _, _ => []) ++ [Msg.separator]
  · unfold stepMsgs
    simp [List.append_assoc]

theorem not_mem_stepMsgs_flatten (ws : List BenchWorld) :
    Msg.summaryHeader ∉ (ws.map stepMsgs).flatten
  ∧ Msg.chartSaved ∉ (ws.map stepMsgs).flatten := by
  constructor <;>
  · intro hmem
    rw [List.mem_flatten] at hmem
    obtain ⟨l, hl, hm⟩ := hmem
    obtain ⟨w, hw, rfl⟩ := List.mem_map.mp hl
    rcases mem_stepMsgs_cases w _ hm with h | ⟨rm, h⟩ | ⟨t1, t2, h⟩ | h <;> simp_all

/-- C1: Both-or-neither invariant: the benchmarks recorded by the main loop
are exactly the names of the worlds where both invocations returned a time,
the three parallel lists have equal length, a benchmark where either
invocation returned no time leaves the results unchanged (no partial
record), joint success appends the full triple, and a non-zero exit of the
first invocation yields no time, so such a benchmark never appears. -/
theorem c1_both_or_neither (ws : List BenchWorld) (r : Results) (w : BenchWorld)
    (dur : Seconds) (rc : ℤ) (errText : String) :
    (ws.foldl stepResults emptyResults).benchmarks
        = (ws.filter bothOk).map BenchWorld.name
  ∧ (ws.foldl stepResults emptyResults).egglog_times.length
        = (ws.foldl stepResults emptyResults).benchmarks.length
  ∧ (ws.foldl stepResults emptyResults).baseline_times.length
        = (ws.foldl stepResults emptyResults).benchmarks.length
  ∧ ((run_egglog w).1 = none ∨ (run_base w).1 = none → stepResults r w = r)
  ∧ (bothOk w = true →
        stepResults r w = ⟨r.benchmarks ++ [w.name],
          r.egglog_times ++ [(run_egglog w).1.getD 0],
          r.baseline_times ++ [(run_base w).1.getD 0]⟩)
  ∧ (w.egglogChild = ChildBehavior.runsFor dur rc errText → rc ≠ 0 →
        (run_egglog w).1 = none) := by
  refine ⟨?_, ?_, ?_, stepResults_none r w, ?_, ?_⟩
  · rw [foldl_stepResults_eq]
    simp [emptyResults]
  · rw [foldl_stepResults_eq]
    simp [emptyResults]
  · rw [foldl_stepResults_eq]
    simp [emptyResults]
  · intro hb
    obtain ⟨h1, h2⟩ := bothOk_true_some w hb
    rw [stepResults_some r w _ _ h1 h2]
  · intro hc hrc
    unfold run_egglog
    rw [hc]
    exact run_benchmark_nonzero_exit _ _ _ _ _ hrc

/-- C1 witness at a concrete pair of worlds: wOk succeeds twice, wFail has
a non-zero first exit, and only wOk is recorded. -/
theorem c1_both_or_neither_witness :
    ([wOk, wFail].foldl stepResults emptyResults).benchmarks
        = ([wOk, wFail].filter bothOk).map BenchWorld.name
  ∧ ([wOk, wFail].foldl stepResults emptyResults).benchmarks = ["ok"]
  ∧ (run_egglog wFail).1 = none
  ∧ stepResults emptyResults wFail = emptyResults := by
  have h := c1_both_or_neither [wOk, wFail] emptyResults wFail 1 1 "boom"
  exact ⟨h.1, by decide, h.2.2.2.2.2 rfl (by decide),
    h.2.2.2.1 (Or.inl (h.2.2.2.2.2 rfl (by decide)))⟩

/-- C2: Per-benchmark speedup formula: the speedup is baseline over egglog
time when the latter is positive, is the infinity value when it is exactly
zero, equals exactly 2 for times 2 and 4, and every per-benchmark results
message carries exactly this value. -/
theorem c2_speedup (t1 t2 : Seconds) (h : 0 < t1) :
    speedupOf t1 t2 = SpeedupVal.finite (t2 / t1)
  ∧ (∀ b : Seconds, speedupOf 0 b = SpeedupVal.inf)
  ∧ speedupOf 2 4 = SpeedupVal.finite 2
  ∧ (∀ (w : BenchWorld) (n : String) (a b : Seconds) (sp : SpeedupVal),
        Msg.resultsFor n a b sp ∈ stepMsgs w → sp = speedupOf a b) := by
  refine ⟨?_, ?_, ?_, ?_⟩
  · unfold speedupOf
    rw [if_pos h]
  · intro b
    unfold speedupOf
    rw [if_neg (lt_irrefl 0)]
  · unfold speedupOf
    norm_num
  · intro w n a b sp hm
    rcases mem_stepMsgs_cases w _ hm with h1 | ⟨rm, h1⟩ | ⟨x, y, h1⟩ | h1
    · cases h1
    · cases h1
    · simp only [Msg.resultsFor.injEq] at h1
      obtain ⟨-, ha, hb, hsp⟩ := h1
      rw [hsp, ha, hb]
    · cases h1

/-- C2 witness: times 2 and 4 give exactly 2x, a zero egglog time gives
the infinity value. -/
theorem c2_speedup_witness :
    speedupOf 2 4 = SpeedupVal.finite (4 / 2) ∧ speedupOf 0 9 = SpeedupVal.inf := by
  have h := c2_speedup 2 4 (by norm_num)
  exact ⟨h.1, h.2.1 9⟩

/-- C3 counterexample: the primary binary exits with code 1 having written
"boom" to stderr, yet the runner prints only the running line and the
exit-code line - no stderr excerpt, because stderr went to DEVNULL and the
captured field is None. -/
theorem c3_error_output_counterexample :
    (run_benchmark "egglog" false (ChildBehavior.runsFor 1 1 "boom")).2
      = [RunMsg.running "egglog", RunMsg.failedWithExit "egglog" 1]
  ∧ capturedStderr (stderr_target false) "boom" = none := by
  decide

/-- C3 amended: standard error is discarded (DEVNULL) for both binaries,
so the captured stderr field is always None, no stderr excerpt is ever
printed for any invocation, and a non-timeout non-zero exit prints exactly
the running line and the exit-code line. -/
theorem c3_error_output_amended (binary_name : String) (redirect_stderr : Bool)
    (child : ChildBehavior) (s e : String) (dur : Seconds) (rc : ℤ) (errText : String)
    (hrc : rc ≠ 0) (hdur : ¬ TIMEOUT < dur) :
    stderr_target redirect_stderr = StderrTarget.devnull
  ∧ capturedStderr (stderr_target redirect_stderr) s = none
  ∧ RunMsg.errorExcerpt binary_name e ∉ (run_benchmark binary_name redirect_stderr child).2
  ∧ (run_benchmark binary_name redirect_stderr (ChildBehavior.runsFor dur rc errText)).2
      = [RunMsg.running binary_name, RunMsg.failedWithExit binary_name rc] := by
  refine ⟨rfl, rfl, run_benchmark_no_excerpt _ _ _ _, ?_⟩
  simp only [run_benchmark, stderr_target, capturedStderr, stderrTruthy]
  rw [if_neg hdur, if_neg hrc]
  simp

/-- C3 amended witness: a concrete failing invocation of either binary
prints exactly the two lines and no excerpt. -/
theorem c3_error_output_amended_witness :
    (run_benchmark "egglog-baseline" true (ChildBehavior.runsFor 5 2 "oops")).2
      = [RunMsg.running "egglog-baseline", RunMsg.failedWithExit "egglog-baseline" 2] :=
  (c3_error_output_amended "egglog-baseline" true (ChildBehavior.runsFor 5 2 "oops")
    "x" "y" 5 2 "oops" (by decide) (by norm_num [TIMEOUT])).2.2.2

/-- C4: Pre-flight fatal errors: each of the five environment failures
makes main print the message identifying that failure and stop with exit
status 1, with no results dictionary and no benchmark processed; the first
failing check in source order wins, and the resulting trace holds no
runner message. -/
theorem c4_preflight_fatal (fs : FS) (eg bl : String → ChildBehavior)
    (entries : List String) :
    (fs.benchmarkRootExists = false →
        pmain fs eg bl
          = ⟨[Msg.preflightError PreflightError.benchmarkRootMissing], 1, none⟩)
  ∧ (fs.benchmarkRootExists = true → fs.egglogBinaryExists = false →
        pmain fs eg bl
          = ⟨[Msg.preflightError PreflightError.egglogBinaryMissing], 1, none⟩)
  ∧ (fs.benchmarkRootExists = true → fs.egglogBinaryExists = true →
     fs.baselineBinaryExists = false →
        pmain fs eg bl
          = ⟨[Msg.preflightError PreflightError.baselineBinaryMissing], 1, none⟩)
  ∧ (fs.benchmarkRootExists = true → fs.egglogBinaryExists = true →
     fs.baselineBinaryExists = true → fs.pointerFileExists = false →
        pmain fs eg bl
          = ⟨[Msg.preflightError PreflightError.pointerFileMissing], 1, none⟩)
  ∧ (fs.benchmarkRootExists = true → fs.egglogBinaryExists = true →
     fs.baselineBinaryExists = true → fs.pointerFileExists = true →
     fs.listRoot = none →
        pmain fs eg bl = ⟨[Msg.preflightError PreflightError.readError], 1, none⟩)
  ∧ (fs.benchmarkRootExists = true → fs.egglogBinaryExists = true →
     fs.baselineBinaryExists = true → fs.pointerFileExists = true →
     fs.listRoot = some entries → entries.filter fs.isDir = [] →
        pmain fs eg bl = ⟨[Msg.preflightError PreflightError.noBenchmarks], 1, none⟩)
  ∧ (∀ (e : PreflightError) (rm : RunMsg) (nm : String),
        Msg.runner rm ∉ ([Msg.preflightError e] : List Msg)
      ∧ Msg.runningBenchmark nm ∉ ([Msg.preflightError e] : List Msg)) := by
  refine ⟨?_, ?_, ?_, ?_, ?_, ?_, ?_⟩
  · intro h1
    exact pmain_error fs eg bl _ (by simp [preflight, h1])
  · intro h1 h2
    exact pmain_error fs eg bl _ (by simp [preflight, h1, h2])
  · intro h1 h2 h3
    exact pmain_error fs eg bl _ (by simp [preflight, h1, h2, h3])
  · intro h1 h2 h3 h4
    exact pmain_error fs eg bl _ (by simp [preflight, h1, h2, h3, h4])
  · intro h1 h2 h3 h4 h5
    exact pmain_error fs eg bl _ (by simp [preflight, h1, h2, h3, h4, h5])
  · intro h1 h2 h3 h4 h5 h6
    have he : enumerate entries fs.isDir = [] := (enumerate_eq_nil_iff _ _).mpr h6
    exact pmain_error fs eg bl _ (by simp [preflight, h1, h2, h3, h4, h5, he])
  · intro e rm nm
    simp

/-- C4 witness: with the benchmark root missing, main stops at once with
the root-missing message and exit status 1, producing no results. -/
theorem c4_preflight_fatal_witness :
    pmain fsNoRoot egAll blAll
      = ⟨[Msg.preflightError PreflightError.benchmarkRootMissing], 1, none⟩ :=
  (c4_preflight_fatal fsNoRoot egAll blAll []).1 rfl

/-- C5: Timeout handling: the timeout constant is 3600 seconds, an
invocation of either binary that would run longer returns no time and
prints the timeout message, such a benchmark is never recorded, and the
rendered timeout message differs from every rendered exit-code failure
message. -/
theorem c5_timeout (binary_name : String) (redirect_stderr : Bool) (dur : Seconds)
    (rc : ℤ) (errText : String) (r : Results) (w : BenchWorld)
    (h : TIMEOUT < dur) :
    TIMEOUT = 3600
  ∧ run_benchmark binary_name redirect_stderr (ChildBehavior.runsFor dur rc errText)
      = (none, [RunMsg.running binary_name, RunMsg.timedOutMsg binary_name])
  ∧ (w.egglogChild = ChildBehavior.runsFor dur rc errText → stepResults r w = r)
  ∧ (w.baselineChild = ChildBehavior.runsFor dur rc errText → stepResults r w = r)
  ∧ (∀ rc2 : ℤ, (RunMsg.timedOutMsg binary_name).render
        ≠ (RunMsg.failedWithExit binary_name rc2).render) := by
  refine ⟨rfl, run_benchmark_timeout _ _ _ _ _ h, ?_, ?_, ?_⟩
  · intro hc
    apply stepResults_none
    left
    unfold run_egglog
    rw [hc, run_benchmark_timeout _ _ _ _ _ h]
  · intro hc
    apply stepResults_none
    right
    unfold run_base
    rw [hc, run_benchmark_timeout _ _ _ _ _ h]
  · intro rc2 hEq
    have hl := congrArg String.length hEq
    simp only [RunMsg.render, String.length_append] at hl
    have h20 : (" timed out (>1 hour)" : String).length = 20 := rfl
    have h23 : (" failed with exit code " : String).length = 23 := rfl
    rw [h20, h23] at hl
    omega

/-- C5 witness: a 4000-second run exceeds the timeout, prints the timeout
message, and wSlow is not recorded. -/
theorem c5_timeout_witness :
    run_benchmark "egglog" false (ChildBehavior.runsFor 4000 0 "")
      = (none, [RunMsg.running "egglog", RunMsg.timedOutMsg "egglog"])
  ∧ stepResults emptyResults wSlow = emptyResults := by
  have h := c5_timeout "egglog" false 4000 0 "" emptyResults wSlow (by norm_num [TIMEOUT])
  exact ⟨h.2.1, h.2.2.1 rfl⟩

/-- C6: All-fail completion: when the pre-flight checks pass but every
benchmark fails one of its invocations, main ends with exit status 0 and
empty results, prints the no-comparisons message, and neither the summary
nor the chart step appears in the trace. -/
theorem c6_all_fail (fs : FS) (eg bl : String → ChildBehavior) (dirs : List String)
    (hok : preflight fs = Except.ok dirs)
    (hfail : ∀ n ∈ dirs, bothOk (BenchWorld.mk n (eg n) (bl n)) = false) :
    (pmain fs eg bl).exitCode = 0
  ∧ (pmain fs eg bl).results = some emptyResults
  ∧ Msg.noComparisons ∈ (pmain fs eg bl).trace
  ∧ Msg.summaryHeader ∉ (pmain fs eg bl).trace
  ∧ Msg.chartSaved ∉ (pmain fs eg bl).trace := by
  have hfilter : (dirs.map (fun n => BenchWorld.mk n (eg n) (bl n))).filter bothOk = [] := by
    rw [List.filter_eq_nil_iff]
    intro a ha
    obtain ⟨n, hn, rfl⟩ := List.mem_map.mp ha
    simp [hfail n hn]
  have hr : (dirs.map (fun n => BenchWorld.mk n (eg n) (bl n))).foldl stepResults emptyResults
      = emptyResults := by
    rw [foldl_stepResults_eq, hfilter]
    simp [emptyResults]
  have hm := pmain_ok_empty fs eg bl dirs hok hr
  rw [hm]
  have hflat := not_mem_stepMsgs_flatten (dirs.map (fun n => BenchWorld.mk n (eg n) (bl n)))
  refine ⟨rfl, rfl, ?_, ?_, ?_⟩
  · simp
  · intro hmem
    rcases List.mem_append.mp hmem with hin | hin
    · rcases List.mem_append.mp hin with hin2 | hin2
      · exact absurd (List.mem_singleton.mp hin2) (by simp)
      · exact hflat.1 hin2
    · exact absurd (List.mem_singleton.mp hin) (by simp)
  · intro hmem
    rcases List.mem_append.mp hmem with hin | hin
    · rcases List.mem_append.mp hin with hin2 | hin2
      · exact absurd (List.mem_singleton.mp hin2) (by simp)
      · exact hflat.2 hin2
    · exact absurd (List.mem_singleton.mp hin) (by simp)

/-- C6 witness: with one directory whose first invocation fails, main
ends with status 0 and prints the no-comparisons message. -/
theorem c6_all_fail_witness :
    (pmain fsGood egFail blAll).exitCode = 0
  ∧ Msg.noComparisons ∈ (pmain fsGood egFail blAll).trace := by
  have h := c6_all_fail fsGood egFail blAll ["a"] rfl (by decide)
  exact ⟨h.1, h.2.2.1⟩

/-- C7: Deterministic lexicographic enumeration: the enumerator output is
sorted in ascending lexicographic order, is a permutation of the directory
entries of the root, contains exactly the entries that are directories, and
is identical for any two on-disk orders that are permutations of each
other. -/
theorem c7_enumeration (entries entries2 : List String) (isDir : String → Bool)
    (hperm : entries.Perm entries2) :
    List.Sorted (fun a b : String => a ≤ b) (enumerate entries isDir)
  ∧ (enumerate entries isDir).Perm (entries.filter isDir)
  ∧ (∀ s : String, s ∈ enumerate entries isDir ↔ s ∈ entries ∧ isDir s = true)
  ∧ enumerate entries isDir = enumerate entries2 isDir := by
  have hs1 := List.sorted_insertionSort (fun a b : String => a ≤ b) (entries.filter isDir)
  have hp1 := List.perm_insertionSort (fun a b : String => a ≤ b) (entries.filter isDir)
  have hs2 := List.sorted_insertionSort (fun a b : String => a ≤ b) (entries2.filter isDir)
  have hp2 := List.perm_insertionSort (fun a b : String => a ≤ b) (entries2.filter isDir)
  refine ⟨hs1, hp1, ?_, ?_⟩
  · intro s
    rw [show (s ∈ enumerate entries isDir) = (s ∈ entries.filter isDir) from
      propext hp1.mem_iff]
    exact List.mem_filter
  · exact List.eq_of_perm_of_sorted
      (hp1.trans ((hperm.filter isDir).trans hp2.symm)) hs1 hs2

/-- C7 witness: on-disk order b, a, c is enumerated as a, b, c. -/
theorem c7_enumeration_witness :
    enumerate ["b", "a", "c"] (fun _ => true) = enumerate ["a", "b", "c"] (fun _ => true)
  ∧ enumerate ["b", "a", "c"] (fun _ => true) = ["a", "b", "c"] := by
  have h := c7_enumeration ["b", "a", "c"] ["a", "b", "c"] (fun _ => true) (by decide)
  have habc : List.Sorted (fun a b : String => a ≤ b) ["a", "b", "c"] := by
    simp [List.sorted_cons]
    decide
  refine ⟨h.2.2.2, ?_⟩
  exact List.eq_of_perm_of_sorted (h.2.1.trans (by decide)) h.1 habc

/-- C8: Summary totals: for a completed run with a non-empty results
collection, the trace holds the summary-totals message whose figures are
the sum of the egglog series, the sum of the baseline series, and the
ratio of the sums as the overall speedup, infinite when the egglog total is
zero. -/
theorem c8_summary_totals (fs : FS) (eg bl : String → ChildBehavior)
    (dirs : List String) (r : Results) (hok : preflight fs = Except.ok dirs)
    (hr : (pmain fs eg bl).results = some r) (hne : r.benchmarks ≠ []) :
    Msg.summaryTotals r.benchmarks.length r.egglog_times.sum r.baseline_times.sum
      (speedupOf r.egglog_times.sum r.baseline_times.sum) ∈ (pmain fs eg bl).trace
  ∧ (0 < r.egglog_times.sum →
      speedupOf r.egglog_times.sum r.baseline_times.sum
        = SpeedupVal.finite (r.baseline_times.sum / r.egglog_times.sum))
  ∧ (r.egglog_times.sum = 0 →
      speedupOf r.egglog_times.sum r.baseline_times.sum = SpeedupVal.inf) := by
  obtain ⟨hres, htr⟩ := pmain_ok_results fs eg bl dirs hok
  have hrr : (dirs.map (fun n => BenchWorld.mk n (eg n) (bl n))).foldl
      stepResults emptyResults = r := by
    rw [hres] at hr
    exact Option.some.inj hr
  rw [hrr] at htr
  have hEmp : r.benchmarks.isEmpty = false := by
    rcases hb : r.benchmarks.isEmpty with _ | _
    · rfl
    · exact absurd (List.isEmpty_iff.mp hb) hne
  refine ⟨?_, ?_, ?_⟩
  · rw [htr hEmp]
    unfold print_summary
    simp
  · intro hpos
    unfold speedupOf
    rw [if_pos hpos]
  · intro hz
    unfold speedupOf
    rw [hz, if_neg (lt_irrefl 0)]

/-- C8 witness: one benchmark with times 2 and 4 yields totals 2 and 4 and
the overall speedup value for them in the trace. -/
theorem c8_summary_totals_witness :
    Msg.summaryTotals 1 2 4 (speedupOf 2 4) ∈ (pmain fsGood egAll blAll).trace := by
  have h := c8_summary_totals fsGood egAll blAll ["a"] ⟨["a"], [2], [4]⟩ rfl
    (by decide) (by decide)
  simpa using h.1

/-- C9: Implicit plotter convention: within range, the chart speedup is
baseline over egglog time when the egglog time is positive and 0 when it
is zero, in which case the textual reporter for the same benchmark shows
the infinity value instead. -/
theorem c9_chart (results : Results) (i : Nat) (hi : i < results.benchmarks.length) :
    (0 < results.egglog_times.getD i 0 →
        (chart_speedups results).getD i 0
          = results.baseline_times.getD i 0 / results.egglog_times.getD i 0
      ∧ speedupOf (results.egglog_times.getD i 0) (results.baseline_times.getD i 0)
          = SpeedupVal.finite ((chart_speedups results).getD i 0))
  ∧ (results.egglog_times.getD i 0 = 0 →
        (chart_speedups results).getD i 0 = 0
      ∧ speedupOf (results.egglog_times.getD i 0) (results.baseline_times.getD i 0)
          = SpeedupVal.inf) := by
  have hget : (chart_speedups results).getD i 0
      = if 0 < results.egglog_times.getD i 0 then
          results.baseline_times.getD i 0 / results.egglog_times.getD i 0
        else 0 := by
    unfold chart_speedups
    rw [List.getD_eq_getElem?_getD, List.getElem?_map, List.getElem?_range hi]
    rfl
  constructor
  · intro h
    rw [hget, if_pos h]
    refine ⟨rfl, ?_⟩
    unfold speedupOf
    rw [if_pos h]
  · intro h
    rw [hget, h]
    simp [speedupOf]

/-- C9 witness: times (2, 4) plot 2, a zero egglog time plots 0 while the
reporter shows the infinity value. -/
theorem c9_chart_witness :
    (chart_speedups ⟨["a"], [2], [4]⟩).getD 0 0 = 4 / 2
  ∧ (chart_speedups ⟨["z"], [0], [4]⟩).getD 0 0 = 0
  ∧ speedupOf 0 4 = SpeedupVal.inf := by
  have h1 := (c9_chart ⟨["a"], [2], [4]⟩ 0 (by decide)).1 (by norm_num)
  have h2 := (c9_chart ⟨["z"], [0], [4]⟩ 0 (by decide)).2 (by norm_num)
  exact ⟨by simpa using h1.1, by simpa using h2.1, by simpa using h2.2⟩

/-- C10: Implicit no-short-circuit: even when the primary invocation
returned no time, the benchmark's trace still contains the baseline
running line, and all messages of the baseline invocation appear inside
the benchmark's trace, so the second invocation is always performed. -/
theorem c10_no_short_circuit (w : BenchWorld) (h : (run_egglog w).1 = none) :
    Msg.runner (RunMsg.running "egglog-baseline") ∈ stepMsgs w
  ∧ (∃ pre post, stepMsgs w = pre ++ (run_base w).2.map Msg.runner ++ post) := by
  obtain ⟨pre, post, hsplit⟩ := stepMsgs_base_infix w
  constructor
  · rw [hsplit]
    obtain ⟨rest, hhead⟩ := run_benchmark_msgs_head "egglog-baseline" true w.baselineChild
    have hmem : RunMsg.running "egglog-baseline" ∈ (run_base w).2 := by
      unfold run_base
      rw [hhead]
      exact List.mem_cons_self _ _
    exact List.mem_append.mpr (Or.inl (List.mem_append.mpr
      (Or.inr (List.mem_map_of_mem Msg.runner hmem))))
  · exact ⟨pre, post, hsplit⟩

/-- C10 witness: wFail's first invocation fails, yet the baseline running
line is in its trace. -/
theorem c10_no_short_circuit_witness :
    Msg.runner (RunMsg.running "egglog-baseline") ∈ stepMsgs wFail :=
  (c10_no_short_circuit wFail (by decide)).1
